import Mathlib

/-!
Verification of the schema-driven batch ETL pipeline.

Shallow embedding of the two ETL scripts of the repository:
the CSV-to-JSON converter (File_Format_Converter/app.py) and the
CSV-to-database loader (file-to-db-loader/app.py).  Both share the same
building blocks: a schema registry (get_column_names), a path-based
dataset-name resolver inside read_csv, a chunked reader, a sink writer
(to_json for the converter, to_sql for the loader), a per-dataset job
(file_converter / db_loader) and a dispatcher (process_files).

Modelling conventions:
* a parsed CSV row is a list of raw string fields;
* a DataFrame record is an association list column name to field value,
  as produced by pandas when the names argument is given;
* the source tree is an association list from dataset directory name to
  the files (name and parsed rows) it contains;
* the file-sink store is an association list from output path to the
  list of records persisted at that path; writing with df.to_json opens
  the path in write mode, so setFile replaces the content at the path;
* the database is an association list from table name to its rows;
  to_sql uses the append mode of pandas, so appendTable extends a table;
* Python exceptions are values of AppError; KeyError on a schema lookup
  becomes unknownDataset, the NameError raised on an empty glob becomes
  noFilesFound, the IndexError of a too-short path becomes badPath.
-/

deriving instance DecidableEq for Except

namespace ETL

/-- One column definition of the schema document: the json object
with fields column_name and column_position. -/
structure ColumnDef where
  column_name : String
  column_position : Int
deriving DecidableEq

/-- The schema document schemas.json: a json object mapping dataset
name to its column definitions.  Keys are in document order and, as
Python dict keys, unique. -/
abbrev Schemas := List (String × List ColumnDef)

/-- Python errors raised by the scripts. -/
inductive AppError where
  /-- KeyError raised by schemas[ds_name] in get_column_names. -/
  | unknownDataset (ds : String)
  /-- NameError raised when glob finds no part files for a dataset. -/
  | noFilesFound (ds : String)
  /-- IndexError of file_path_list[-2] on a path with fewer than two
  segments. -/
  | badPath (file : String)
deriving DecidableEq

/-- Dictionary lookup schemas[ds_name]: first entry with the given key. -/
def lookupSchema (schemas : Schemas) (ds : String) : Option (List ColumnDef) :=
  (schemas.find? (fun p => p.1 = ds)).map Prod.snd

/-- Comparison used by sorted(column_details, key=lambda col: col[sorting_key])
with the default sorting_key column_position. -/
def posLE (a b : ColumnDef) : Prop := a.column_position ≤ b.column_position

instance : DecidableRel posLE := fun a b => by
  unfold posLE
  infer_instance

/-- The sort performed by Python sorted on the column details.  Python
sorted is a stable sort on the comparison key; since a stable sort of a
list under a total preorder is unique, any stable sorting algorithm is
an extensionally exact model, and we use insertion sort. -/
def sortColumns (column_details : List ColumnDef) : List ColumnDef :=
  column_details.insertionSort posLE

/-- get_column_names(schemas, ds_name): looks the dataset up in the
schema document, sorts its column details by column_position (Python
sorted, a stable sort) and returns the column names in that order.
A missing dataset raises KeyError, modelled as unknownDataset. -/
def get_column_names (schemas : Schemas) (ds_name : String) :
    Except AppError (List String) :=
  match lookupSchema schemas ds_name with
  | none => .error (.unknownDataset ds_name)
  | some column_details => .ok ((sortColumns column_details).map (·.column_name))

/-- Characters matched by the regular expression class of slash and
backslash used in re.split to cut a path into segments. -/
def isSep (c : Char) : Bool := c = '/' || c = '\\'

/-- re.split on a character class: cut the character list at every
separator, keeping empty fields, like Python re.split. -/
def splitFields (p : Char → Bool) : List Char → List (List Char)
  | [] => [[]]
  | c :: cs =>
    if p c then [] :: splitFields p cs
    else
      match splitFields p cs with
      | [] => [[c]]
      | f :: rest => (c :: f) :: rest

/-- file_path_list = re.split of the path on slash or backslash. -/
def pathSegments (file : String) : List String :=
  (splitFields isSep file.data).map (fun cs => String.mk cs)

/-- file_path_list[-2]: the second-to-last path segment, the parent
directory name, used by read_csv as the dataset name.  Python raises
IndexError when the list has fewer than two elements, hence the Option. -/
def dsNameOfPath (file : String) : Option String :=
  (pathSegments file).reverse[1]?

/-- A parsed CSV row: the raw string fields in physical column order. -/
abbrev Row := List String

/-- A DataFrame record: pandas assigns the schema column names
positionally to the fields of a row (names=columns, headerless file). -/
abbrev Record := List (String × String)

/-- Positional assignment of column names to the fields of one row. -/
def assignColumns (columns : List String) (row : Row) : Record :=
  columns.zip row

/-- Fuel-indexed chunking: groups a list into consecutive groups of B
elements (last group possibly smaller).  The fuel argument makes the
recursion structural; fuel at least the length of the list suffices
when B is positive. -/
def chunksFuel (B : Nat) : Nat → List α → List (List α)
  | _, [] => []
  | 0, a :: as => [a :: as]
  | fuel + 1, a :: as => (a :: as).take B :: chunksFuel B fuel ((a :: as).drop B)

/-- The batching performed by pandas read_csv with chunksize=B: the rows
of the file grouped into consecutive batches of at most B rows. -/
def chunks (B : Nat) (l : List α) : List (List α) :=
  chunksFuel B l.length l

/-- read_csv of the loader, generalised over the chunk size (the script
hardcodes chunksize=10000): derives the dataset name from the
second-to-last path segment, resolves the column names from the schema,
and returns the rows of the file grouped into batches of at most
chunksize records. -/
def read_csv_sized (file : String) (schemas : Schemas) (contents : List Row)
    (chunksize : Nat) : Except AppError (List (List Record)) :=
  match dsNameOfPath file with
  | none => .error (.badPath file)
  | some ds_name =>
    match get_column_names schemas ds_name with
    | .error e => .error e
    | .ok columns =>
      .ok ((chunks chunksize contents).map (fun rows => rows.map (assignColumns columns)))

/-- read_csv of the loader as written, with chunksize=10000. -/
def read_csv_load (file : String) (schemas : Schemas) (contents : List Row) :
    Except AppError (List (List Record)) :=
  read_csv_sized file schemas contents 10000

/-- read_csv of the converter: same name resolution, but the whole file
is read into a single DataFrame. -/
def read_csv_conv (file : String) (schemas : Schemas) (contents : List Row) :
    Except AppError (List Record) :=
  match dsNameOfPath file with
  | none => .error (.badPath file)
  | some ds_name =>
    match get_column_names schemas ds_name with
    | .error e => .error e
    | .ok columns => .ok (contents.map (assignColumns columns))

/-- file_path_list[-1]: the last path segment, used as file_name.  re.split
always returns at least one element, so the Python negative index cannot
fail here; the default value is never reached. -/
def lastSegment (file : String) : String :=
  ((pathSegments file).reverse).headD ""

/-- The source tree under the base directory: dataset directory name to
the files it holds, each a file name with its parsed CSV rows. -/
abbrev SrcFS := List (String × List (String × List Row))

/-- The files of one dataset directory (empty when the directory is
absent, as glob returns no matches there). -/
def dirFiles (src : SrcFS) (ds : String) : List (String × List Row) :=
  ((src.find? (fun p => p.1 = ds)).map Prod.snd).getD []

/-- glob of src_base_dir/ds_name/part-asterisk: the files of the dataset
directory whose name starts with part-. -/
def globParts (src : SrcFS) (ds : String) : List (String × List Row) :=
  (dirFiles src ds).filter (fun f => "part-".data.isPrefixOf f.1.data)

/-- The file-sink state: output path to the records persisted there. -/
abbrev FileStore := List (String × List Record)

/-- Writing a whole file: the content at the path is replaced (paths are
unique keys; a fresh path is added at the end). -/
def setFile : FileStore → String → List Record → FileStore
  | [], path, content => [(path, content)]
  | (q, d) :: st, path, content =>
    if q = path then (path, content) :: st else (q, d) :: setFile st path content

/-- The records currently persisted at a path, if the file exists. -/
def lookupStore (st : FileStore) (path : String) : Option (List Record) :=
  (st.find? (fun p => p.1 = path)).map Prod.snd

/-- to_json: df.to_json(json_file_path, orient=records, lines=True) opens
the path tgt_base_dir/ds_name/file_name in write mode, so the records of
the DataFrame become the whole content of that file, replacing any
previous content (the makedirs call only creates directories). -/
def to_json (df : List Record) (tgt_base_dir ds_name file_name : String)
    (st : FileStore) : FileStore :=
  setFile st (tgt_base_dir ++ "/" ++ ds_name ++ "/" ++ file_name) df

/-- The database state: table name to the rows of the table. -/
abbrev DB := List (String × List Record)

/-- Appending rows to a table: existing rows are kept and the new rows
are added after them; a missing table is created with the new rows. -/
def appendTable : DB → String → List Record → DB
  | [], t, rows => [(t, rows)]
  | (u, es) :: db, t, rows =>
    if u = t then (t, es ++ rows) :: db else (u, es) :: appendTable db t rows

/-- The rows of a table, if the table exists. -/
def lookupTable (db : DB) (t : String) : Option (List Record) :=
  (db.find? (fun p => p.1 = t)).map Prod.snd

/-- to_sql: df.to_sql(ds_name, db_conn_uri, if_exists=append, index=False)
appends the records of the DataFrame to the table named after the
dataset. -/
def to_sql (df : List Record) (db : DB) (ds_name : String) : DB :=
  appendTable db ds_name df

/-- The per-dataset outcome of a job, as reported by the dispatcher. -/
inductive JobResult where
  | Completed
  | NotFound
  | Failed (e : AppError)
deriving DecidableEq

/-- Loop of file_converter over the globbed files: each file is read with
read_csv and written with to_json; the first raised error stops the loop,
keeping the writes performed so far. -/
def convFiles (schemas : Schemas) (src_base_dir tgt_base_dir ds_name : String) :
    List (String × List Row) → FileStore → Option AppError × FileStore
  | [], st => (none, st)
  | (name, rows) :: files, st =>
    let path := src_base_dir ++ "/" ++ ds_name ++ "/" ++ name
    match read_csv_conv path schemas rows with
    | .error e => (some e, st)
    | .ok df =>
      convFiles schemas src_base_dir tgt_base_dir ds_name files
        (to_json df tgt_base_dir ds_name (lastSegment path) st)

/-- file_converter(src_base_dir, tgt_base_dir, ds_name): globs the part
files of the dataset, raises NameError (noFilesFound) when there are
none, otherwise converts each file to JSON. -/
def file_converter (schemas : Schemas) (src : SrcFS)
    (src_base_dir tgt_base_dir ds_name : String) (st : FileStore) :
    Option AppError × FileStore :=
  let files := globParts src ds_name
  if files.isEmpty then (some (.noFilesFound ds_name), st)
  else convFiles schemas src_base_dir tgt_base_dir ds_name files st

/-- The dataset names the dispatcher iterates over: Python replaces
ds_names by schemas.keys() whenever the argument is falsy, that is both
when it is None and when it is an empty list. -/
def effectiveNames (schemas : Schemas) : Option (List String) → List String
  | none => schemas.map Prod.fst
  | some l => if l.isEmpty then schemas.map Prod.fst else l

/-- Outcome of the converter dispatcher: the reported per-dataset
results, the final store, and the uncaught exception if the loop was
aborted by one (only NameError is caught by the converter loop). -/
structure ConvOutcome where
  results : List (String × JobResult)
  store : FileStore
  aborted : Option AppError
deriving DecidableEq

/-- The converter dispatcher loop: one file_converter call per dataset
inside try/except NameError.  A NameError is reported and the loop
continues with the next dataset; any other exception propagates,
aborting the loop and skipping the remaining datasets. -/
def convLoop (schemas : Schemas) (src : SrcFS) (src_base_dir tgt_base_dir : String) :
    List String → FileStore → ConvOutcome
  | [], st => ⟨[], st, none⟩
  | ds :: rest, st =>
    match file_converter schemas src src_base_dir tgt_base_dir ds st with
    | (none, st') =>
      let o := convLoop schemas src src_base_dir tgt_base_dir rest st'
      ⟨(ds, .Completed) :: o.results, o.store, o.aborted⟩
    | (some (.noFilesFound _), st') =>
      let o := convLoop schemas src src_base_dir tgt_base_dir rest st'
      ⟨(ds, .NotFound) :: o.results, o.store, o.aborted⟩
    | (some e, st') => ⟨[], st', some e⟩

/-- process_files of the converter. -/
def process_files_conv (schemas : Schemas) (src : SrcFS)
    (src_base_dir tgt_base_dir : String) (ds_names : Option (List String))
    (st : FileStore) : ConvOutcome :=
  convLoop schemas src src_base_dir tgt_base_dir (effectiveNames schemas ds_names) st

/-- Loop of db_loader over the globbed files: each file is read in
chunks and every chunk is appended to the dataset table in order; the
first raised error stops the loop, keeping the writes performed so far. -/
def loadFiles (schemas : Schemas) (src_base_dir ds_name : String) :
    List (String × List Row) → DB → Option AppError × DB
  | [], db => (none, db)
  | (name, rows) :: files, db =>
    let path := src_base_dir ++ "/" ++ ds_name ++ "/" ++ name
    match read_csv_load path schemas rows with
    | .error e => (some e, db)
    | .ok dfs =>
      loadFiles schemas src_base_dir ds_name files
        (dfs.foldl (fun d df => to_sql df d ds_name) db)

/-- db_loader(src_base_dir, db_conn_uri, ds_name): globs the part files
of the dataset, raises NameError (noFilesFound) when there are none,
otherwise loads every file chunk by chunk into the dataset table. -/
def db_loader (schemas : Schemas) (src : SrcFS) (src_base_dir ds_name : String)
    (db : DB) : Option AppError × DB :=
  let files := globParts src ds_name
  if files.isEmpty then (some (.noFilesFound ds_name), db)
  else loadFiles schemas src_base_dir ds_name files db

/-- The JobResult reported for a finished loader job: NameError means no
files were found, any other exception is a failure, no exception means
the dataset completed. -/
def classify : Option AppError → JobResult
  | none => .Completed
  | some (.noFilesFound _) => .NotFound
  | some e => .Failed e

/-- process_dataset of the loader: one db_loader call wrapped in
try/except that catches NameError and every other Exception, so no
error ever propagates out of a loader job. -/
def process_dataset (schemas : Schemas) (src : SrcFS) (src_base_dir ds_name : String)
    (db : DB) : JobResult × DB :=
  let r := db_loader schemas src src_base_dir ds_name db
  (classify r.1, r.2)

/-- Outcome of the loader dispatcher: the per-dataset results collected
by pool.map in argument order, and the final database state. -/
structure LoadOutcome where
  results : List (String × JobResult)
  db : DB
deriving DecidableEq

/-- The loader dispatcher loop: one process_dataset call per dataset;
every dataset gets a result, none is skipped. -/
def loadLoop (schemas : Schemas) (src : SrcFS) (src_base_dir : String) :
    List String → DB → LoadOutcome
  | [], db => ⟨[], db⟩
  | ds :: rest, db =>
    let r := process_dataset schemas src src_base_dir ds db
    let o := loadLoop schemas src src_base_dir rest r.2
    ⟨(ds, r.1) :: o.results, o.db⟩

/-- Size of the multiprocessing pool created by the loader:
min(len(ds_names), 8) computed on the effective name list, after the
falsy-argument fallback to schemas.keys(). -/
def pool_size (schemas : Schemas) (ds_names : Option (List String)) : Nat :=
  min (effectiveNames schemas ds_names).length 8

/-- process_files of the loader: builds the effective name list, sizes
the pool, and maps process_dataset over the datasets. -/
def process_files_load (schemas : Schemas) (src : SrcFS) (src_base_dir : String)
    (ds_names : Option (List String)) (db : DB) : LoadOutcome :=
  loadLoop schemas src src_base_dir (effectiveNames schemas ds_names) db

/-! ## Concrete fixtures used by counterexamples and witnesses -/

/-- Schema with the single dataset B (dataset A is absent). -/
def schemaOnlyB : Schemas := [("B", [⟨"id", 1⟩])]

/-- Source tree where both dataset directories hold one part file. -/
def srcAB : SrcFS := [("A", [("part-0", [["1"]])]), ("B", [("part-0", [["7"]])])]

/-- Schema with the two datasets A and B. -/
def schemaAB : Schemas := [("A", [⟨"id", 1⟩]), ("B", [⟨"id", 1⟩])]

/-- Source tree where dataset A has no files and dataset B has one part
file of two rows. -/
def srcOnlyB : SrcFS := [("B", [("part-0", [["7"], ["8"]])])]

/-- A file content of five one-field rows. -/
def fiveRows : List Row := [["1"], ["2"], ["3"], ["4"], ["5"]]

/-- A store that already holds one record at an output path. -/
def priorStore : FileStore := [("tgt/orders/part-0000", [[("id", "1")]])]

/-- The store after to_json writes a fresh batch to the same path. -/
def overwrittenStore : FileStore :=
  to_json [[("id", "2")]] "tgt" "orders" "part-0000" priorStore

/-- Schema with three datasets and no columns, for sizing the pool. -/
def schemaThree : Schemas := [("a", []), ("b", []), ("c", [])]

/-- Column details with a duplicated position, exercising the stable
tie-break of the sort. -/
def dupColumns : List ColumnDef := [⟨"a", 1⟩, ⟨"b", 0⟩, ⟨"c", 1⟩]

/-- Schema holding the duplicated-position columns. -/
def dupSchema : Schemas := [("orders", dupColumns)]

end ETL

namespace ETL

/-! ## Helper lemmas -/

lemma chunksFuel_nil (B fuel : Nat) : chunksFuel B fuel ([] : List α) = [] := by
  cases fuel <;> rfl

lemma chunksFuel_ne_nil (B fuel : Nat) (l : List α) (hl : l ≠ []) :
    chunksFuel B fuel l ≠ [] := by
  cases fuel <;> cases l <;> simp_all [chunksFuel]

lemma chunksFuel_flatten (B : Nat) (hB : 0 < B) :
    ∀ (fuel : Nat) (l : List α), l.length ≤ fuel →
      (chunksFuel B fuel l).flatten = l := by
  intro fuel
  induction fuel with
  | zero =>
    intro l hl
    have : l = [] := List.eq_nil_of_length_eq_zero (Nat.le_zero.mp hl)
    subst this
    rfl
  | succ fuel ih =>
    intro l hl
    cases l with
    | nil => rfl
    | cons a as =>
      have hl' : as.length + 1 ≤ fuel + 1 := by simpa using hl
      have hd : ((a :: as).drop B).length ≤ fuel := by
        simp only [List.length_drop, List.length_cons]
        omega
      simp only [chunksFuel, List.flatten_cons, ih _ hd, List.take_append_drop]

lemma chunksFuel_length (B : Nat) (hB : 0 < B) :
    ∀ (fuel : Nat) (l : List α), l.length ≤ fuel →
      (chunksFuel B fuel l).length = (l.length + B - 1) / B := by
  intro fuel
  induction fuel with
  | zero =>
    intro l hl
    have : l = [] := List.eq_nil_of_length_eq_zero (Nat.le_zero.mp hl)
    subst this
    rw [chunksFuel_nil, List.length_nil, List.length_nil,
      Nat.div_eq_of_lt (by omega : 0 + B - 1 < B)]
  | succ fuel ih =>
    intro l hl
    cases l with
    | nil =>
      rw [chunksFuel_nil, List.length_nil, List.length_nil,
        Nat.div_eq_of_lt (by omega : 0 + B - 1 < B)]
    | cons a as =>
      have hl' : as.length + 1 ≤ fuel + 1 := by simpa using hl
      have hd : ((a :: as).drop B).length ≤ fuel := by
        simp only [List.length_drop, List.length_cons]
        omega
      rw [show chunksFuel B (fuel + 1) (a :: as) =
          (a :: as).take B :: chunksFuel B fuel ((a :: as).drop B) from rfl,
        List.length_cons, ih _ hd, List.length_drop, List.length_cons,
        show as.length + 1 + B - 1 = as.length + B from by omega,
        Nat.add_div_right _ hB]
      rcases le_or_lt B (as.length + 1) with h | h
      · rw [show as.length + 1 - B + B - 1 = as.length from by omega]
      · rw [show as.length + 1 - B = 0 from by omega,
          Nat.div_eq_of_lt (by omega : 0 + B - 1 < B),
          Nat.div_eq_of_lt (by omega : as.length < B)]

lemma chunksFuel_sizes (B : Nat) (hB : 0 < B) :
    ∀ (fuel : Nat) (l : List α), l.length ≤ fuel →
      (∀ c ∈ (chunksFuel B fuel l).dropLast, c.length = B) ∧
      (∀ c, (chunksFuel B fuel l).getLast? = some c →
        c.length = if l.length % B = 0 then B else l.length % B) := by
  intro fuel
  induction fuel with
  | zero =>
    intro l hl
    have : l = [] := List.eq_nil_of_length_eq_zero (Nat.le_zero.mp hl)
    subst this
    simp [chunksFuel_nil]
  | succ fuel ih =>
    intro l hl
    cases l with
    | nil => simp [chunksFuel_nil]
    | cons a as =>
      have hd : ((a :: as).drop B).length ≤ fuel := by
        simp only [List.length_drop, List.length_cons] at *
        omega
      by_cases hrest : (a :: as).drop B = []
      · have hle : (a :: as).length ≤ B := List.drop_eq_nil_iff.mp hrest
        rw [show chunksFuel B (fuel + 1) (a :: as) =
            (a :: as).take B :: chunksFuel B fuel ((a :: as).drop B) from rfl,
          hrest, chunksFuel_nil]
        constructor
        · intro c hc
          simp at hc
        · intro c hc
          simp only [List.getLast?_singleton, Option.some.injEq] at hc
          subst hc
          rw [List.length_take]
          rcases Nat.lt_or_ge (a :: as).length B with h | h
          · rw [Nat.mod_eq_of_lt h, if_neg (by simp), Nat.min_eq_right (Nat.le_of_lt h)]
          · have : (a :: as).length = B := Nat.le_antisymm hle h
            rw [this, Nat.mod_self, if_pos rfl, Nat.min_self]
      · obtain ⟨r, rs, hr⟩ := List.exists_cons_of_ne_nil (chunksFuel_ne_nil B fuel _ hrest)
        have hge : B ≤ (a :: as).length := by
          by_contra hcon
          exact hrest (List.drop_eq_nil_iff.mpr (Nat.le_of_lt (Nat.lt_of_not_le hcon)))
        obtain ⟨ihA, ihB⟩ := ih _ hd
        rw [show chunksFuel B (fuel + 1) (a :: as) =
            (a :: as).take B :: chunksFuel B fuel ((a :: as).drop B) from rfl, hr]
        rw [hr] at ihA ihB
        constructor
        · intro c hc
          rw [List.dropLast_cons₂] at hc
          rcases List.mem_cons.mp hc with h | h
          · subst h
            rw [List.length_take]
            exact Nat.min_eq_left hge
          · exact ihA c h
        · intro c hc
          rw [List.getLast?_cons_cons] at hc
          have hres := ihB c hc
          have hmod : ((a :: as).length - B) % B = (a :: as).length % B := by
            conv_rhs => rw [show (a :: as).length = (a :: as).length - B + B from by omega]
            rw [Nat.add_mod_right]
          rwa [List.length_drop, hmod] at hres

instance : IsTotal ColumnDef posLE :=
  ⟨fun a b => Int.le_total a.column_position b.column_position⟩

instance : IsTrans ColumnDef posLE :=
  ⟨fun _ _ _ hab hbc => le_trans hab hbc⟩

/-- A string that contains no path separator, as every real file or
directory name on disk does. -/
def sepFree (s : String) : Prop := ∀ c ∈ s.data, isSep c = false

instance (s : String) : Decidable (sepFree s) := by
  unfold sepFree
  infer_instance

lemma splitFields_ne_nil (p : Char → Bool) (l : List Char) : splitFields p l ≠ [] := by
  cases l with
  | nil => simp [splitFields]
  | cons c cs =>
    simp only [splitFields]
    split
    · simp
    · split
      · simp
      · simp

lemma splitFields_sep (p : Char → Bool) (c : Char) (hc : p c = true) :
    ∀ (a b : List Char),
      splitFields p (a ++ c :: b) = splitFields p a ++ splitFields p b := by
  intro a
  induction a with
  | nil =>
    intro b
    simp [splitFields, hc]
  | cons d a ih =>
    intro b
    obtain ⟨f, rest, hf⟩ := List.exists_cons_of_ne_nil (splitFields_ne_nil p a)
    by_cases h : p d
    · simp [splitFields, h, ih b]
    · simp [splitFields, h, ih b, hf]

lemma splitFields_no_sep (p : Char → Bool) (l : List Char) (h : ∀ c ∈ l, p c = false) :
    splitFields p l = [l] := by
  induction l with
  | nil => rfl
  | cons c cs ih =>
    have hc := h c (by simp)
    have ih' := ih (fun x hx => h x (List.mem_cons_of_mem c hx))
    simp [splitFields, hc, ih']

lemma pathSegments_build (src_base ds name : String)
    (hds : sepFree ds) (hname : sepFree name) :
    pathSegments (src_base ++ "/" ++ ds ++ "/" ++ name) =
      pathSegments src_base ++ [ds, name] := by
  unfold pathSegments
  have hdata : (src_base ++ "/" ++ ds ++ "/" ++ name).data =
      src_base.data ++ '/' :: (ds.data ++ '/' :: name.data) := by
    simp [String.data_append]
  rw [hdata, splitFields_sep isSep '/' (by decide),
    splitFields_sep isSep '/' (by decide),
    splitFields_no_sep isSep ds.data hds, splitFields_no_sep isSep name.data hname]
  simp

lemma dsNameOfPath_build (src_base ds name : String)
    (hds : sepFree ds) (hname : sepFree name) :
    dsNameOfPath (src_base ++ "/" ++ ds ++ "/" ++ name) = some ds := by
  unfold dsNameOfPath
  rw [pathSegments_build src_base ds name hds hname, List.reverse_append]
  rw [List.getElem?_append_left (by simp)]
  rfl

lemma get_column_names_absent (schemas : Schemas) (ds_name : String)
    (h : ds_name ∉ schemas.map Prod.fst) :
    get_column_names schemas ds_name = .error (.unknownDataset ds_name) := by
  have hfind : List.find? (fun p => decide (p.1 = ds_name)) schemas = none :=
    List.find?_eq_none.mpr (fun x hx => by
      simp only [decide_eq_true_eq]
      exact fun hc => h (List.mem_map.mpr ⟨x, hx, hc⟩))
  simp [get_column_names, lookupSchema, hfind]

lemma lookupTable_appendTable (db : DB) (t : String) (rows : List Record) :
    lookupTable (appendTable db t rows) t = some ((lookupTable db t).getD [] ++ rows) := by
  induction db with
  | nil => simp [appendTable, lookupTable]
  | cons e db ih =>
    obtain ⟨u, es⟩ := e
    by_cases h : u = t
    · subst h
      simp [appendTable, lookupTable]
    · simpa [appendTable, lookupTable, h] using ih

lemma lookupTable_appendTable_ne (db : DB) (t t' : String) (rows : List Record)
    (h : t' ≠ t) :
    lookupTable (appendTable db t rows) t' = lookupTable db t' := by
  induction db with
  | nil => simp [appendTable, lookupTable, Ne.symm h]
  | cons e db ih =>
    obtain ⟨u, es⟩ := e
    by_cases hu : u = t
    · subst hu
      simp [appendTable, lookupTable, Ne.symm h]
    · by_cases hu' : u = t'
      · subst hu'
        simp [appendTable, lookupTable, hu]
      · simpa [appendTable, lookupTable, hu, hu'] using ih

lemma lookupStore_setFile (st : FileStore) (path : String) (content : List Record) :
    lookupStore (setFile st path content) path = some content := by
  induction st with
  | nil => simp [setFile, lookupStore]
  | cons e st ih =>
    obtain ⟨q, d⟩ := e
    by_cases h : q = path
    · subst h
      simp [setFile, lookupStore]
    · simpa [setFile, lookupStore, h] using ih

lemma lookupStore_setFile_ne (st : FileStore) (path p : String) (content : List Record)
    (h : p ≠ path) :
    lookupStore (setFile st path content) p = lookupStore st p := by
  induction st with
  | nil => simp [setFile, lookupStore, Ne.symm h]
  | cons e st ih =>
    obtain ⟨q, d⟩ := e
    by_cases hq : q = path
    · subst hq
      simp [setFile, lookupStore, Ne.symm h]
    · by_cases hq' : q = p
      · subst hq'
        simp [setFile, lookupStore, hq]
      · simpa [setFile, lookupStore, hq, hq'] using ih

lemma lookupSchema_isSome (schemas : Schemas) (ds : String)
    (h : ds ∈ schemas.map Prod.fst) :
    ∃ d, lookupSchema schemas ds = some d := by
  induction schemas with
  | nil => simp at h
  | cons e rest ih =>
    by_cases he : e.1 = ds
    · exact ⟨e.2, by simp [lookupSchema, he]⟩
    · have h' : ds ∈ rest.map Prod.fst := by
        rcases List.mem_map.mp h with ⟨x, hx, hx2⟩
        rcases List.mem_cons.mp hx with hh | hh
        · exact absurd (hh ▸ hx2) he
        · exact List.mem_map.mpr ⟨x, hh, hx2⟩
      obtain ⟨d, hd⟩ := ih h'
      refine ⟨d, ?_⟩
      unfold lookupSchema at hd ⊢
      simpa [he] using hd

lemma loadFiles_fst_indep (schemas : Schemas) (src_base_dir ds_name : String) :
    ∀ (files : List (String × List Row)) (db db' : DB),
      (loadFiles schemas src_base_dir ds_name files db).1 =
        (loadFiles schemas src_base_dir ds_name files db').1 := by
  intro files
  induction files with
  | nil => intro db db'; rfl
  | cons f files ih =>
    intro db db'
    obtain ⟨name, rows⟩ := f
    simp only [loadFiles]
    cases hr : read_csv_load (src_base_dir ++ "/" ++ ds_name ++ "/" ++ name)
        schemas rows with
    | error e => simp [hr]
    | ok dfs =>
      simp only [hr]
      exact ih _ _

lemma db_loader_fst_indep (schemas : Schemas) (src : SrcFS)
    (src_base_dir ds_name : String) (db db' : DB) :
    (db_loader schemas src src_base_dir ds_name db).1 =
      (db_loader schemas src src_base_dir ds_name db').1 := by
  unfold db_loader
  dsimp only
  split
  · rfl
  · exact loadFiles_fst_indep schemas src_base_dir ds_name _ db db'

lemma loadLoop_results (schemas : Schemas) (src : SrcFS) (src_base_dir : String) :
    ∀ (names : List String) (db : DB),
      (loadLoop schemas src src_base_dir names db).results =
        names.map (fun n => (n, (process_dataset schemas src src_base_dir n []).1)) := by
  intro names
  induction names with
  | nil => intro db; rfl
  | cons n rest ih =>
    intro db
    simp only [loadLoop, List.map_cons]
    refine congrArg₂ _ ?_ (ih _)
    refine congrArg _ ?_
    simp only [process_dataset]
    exact congrArg classify (db_loader_fst_indep schemas src src_base_dir n db [])

lemma convFiles_none (schemas : Schemas) (src_base_dir tgt_base_dir ds : String)
    (hds : sepFree ds) (hsome : ∃ d, lookupSchema schemas ds = some d) :
    ∀ (files : List (String × List Row)) (st : FileStore),
      (∀ f ∈ files, sepFree f.1) →
      (convFiles schemas src_base_dir tgt_base_dir ds files st).1 = none := by
  obtain ⟨d, hd⟩ := hsome
  intro files
  induction files with
  | nil => intro st hf; rfl
  | cons f rest ih =>
    intro st hf
    obtain ⟨name, rows⟩ := f
    have hname : sepFree name := hf (name, rows) (by simp)
    have hpath : dsNameOfPath (src_base_dir ++ "/" ++ ds ++ "/" ++ name) = some ds :=
      dsNameOfPath_build src_base_dir ds name hds hname
    have hread : read_csv_conv (src_base_dir ++ "/" ++ ds ++ "/" ++ name) schemas rows =
        .ok (rows.map (assignColumns ((sortColumns d).map (fun c => c.column_name)))) := by
      simp [read_csv_conv, hpath, get_column_names, hd]
    simp only [convFiles, hread]
    exact ih _ (fun g hg => hf g (List.mem_cons_of_mem _ hg))

lemma convLoop_clean (schemas : Schemas) (src : SrcFS)
    (src_base_dir tgt_base_dir : String) :
    ∀ (names : List String) (st : FileStore),
      (∀ ds ∈ names, sepFree ds ∧ ds ∈ schemas.map Prod.fst) →
      (∀ ds ∈ names, ∀ f ∈ globParts src ds, sepFree f.1) →
      (convLoop schemas src src_base_dir tgt_base_dir names st).results.map Prod.fst =
        names ∧
      (convLoop schemas src src_base_dir tgt_base_dir names st).aborted = none := by
  intro names
  induction names with
  | nil => intro st h1 h2; exact ⟨rfl, rfl⟩
  | cons ds rest ih =>
    intro st h1 h2
    obtain ⟨hds, hmem⟩ := h1 ds (by simp)
    have hsome := lookupSchema_isSome schemas ds hmem
    have htail := fun st' => ih st' (fun d hd => h1 d (List.mem_cons_of_mem _ hd))
      (fun d hd => h2 d (List.mem_cons_of_mem _ hd))
    by_cases hge : (globParts src ds).isEmpty
    · have hfc : file_converter schemas src src_base_dir tgt_base_dir ds st =
          (some (.noFilesFound ds), st) := by
        simp [file_converter, hge]
      simp only [convLoop, hfc]
      exact ⟨by simp [(htail st).1], by simp [(htail st).2]⟩
    · have hfst : (convFiles schemas src_base_dir tgt_base_dir ds
          (globParts src ds) st).1 = none :=
        convFiles_none schemas src_base_dir tgt_base_dir ds hds hsome _ st
          (h2 ds (by simp))
      have hfc : file_converter schemas src src_base_dir tgt_base_dir ds st =
          (none, (convFiles schemas src_base_dir tgt_base_dir ds
            (globParts src ds) st).2) := by
        unfold file_converter
        rw [if_neg (by simpa using hge)]
        exact Prod.ext hfst rfl
      simp only [convLoop, hfc]
      refine ⟨by simp [(htail _).1], by simp [(htail _).2]⟩

/-! ## Claims -/

/-- C3: for every input file of R rows and batch size B > 0, the chunked
read produces exactly ceil(R/B) batches (in Nat arithmetic,
(R + B - 1) / B), each of size B except possibly the last, whose size is
R mod B, or B when R mod B = 0; concatenating the batches in production
order reproduces the original row sequence exactly.  The same counting
and round-trip properties hold for the record batches produced by
read_csv with a given chunk size, whose rows are the original rows with
the schema column names assigned. -/
theorem C3_chunked_read (contents : List Row) (B : Nat) (hB : 0 < B) :
    (chunks B contents).length = (contents.length + B - 1) / B ∧
    (∀ c ∈ (chunks B contents).dropLast, c.length = B) ∧
    (∀ c, (chunks B contents).getLast? = some c →
      c.length = if contents.length % B = 0 then B else contents.length % B) ∧
    (chunks B contents).flatten = contents ∧
    (∀ (file : String) (schemas : Schemas) (dfs : List (List Record)),
      read_csv_sized file schemas contents B = .ok dfs →
        dfs.length = (contents.length + B - 1) / B ∧
        (∀ df ∈ dfs.dropLast, df.length = B) ∧
        (∀ df, dfs.getLast? = some df →
          df.length = if contents.length % B = 0 then B else contents.length % B) ∧
        ∃ f, dfs.flatten = contents.map f) := by
  have hlen : (chunks B contents).length = (contents.length + B - 1) / B :=
    chunksFuel_length B hB contents.length contents le_rfl
  have hsizes : (∀ c ∈ (chunks B contents).dropLast, c.length = B) ∧
      (∀ c, (chunks B contents).getLast? = some c →
        c.length = if contents.length % B = 0 then B else contents.length % B) :=
    chunksFuel_sizes B hB contents.length contents le_rfl
  have hflat : (chunks B contents).flatten = contents :=
    chunksFuel_flatten B hB contents.length contents le_rfl
  refine ⟨hlen, hsizes.1, hsizes.2, hflat, ?_⟩
  intro file schemas dfs hread
  unfold read_csv_sized at hread
  split at hread
  · exact absurd hread (by simp)
  · split at hread
    · exact absurd hread (by simp)
    · rename_i ds hds columns hcols
      have hdfs : dfs =
          (chunks B contents).map (fun rows => rows.map (assignColumns columns)) := by
        cases hread
        rfl
      subst hdfs
      refine ⟨by rw [List.length_map, hlen], ?_, ?_, ?_⟩
      · intro df hdf
        rw [← List.map_dropLast] at hdf
        obtain ⟨c, hc, hcd⟩ := List.mem_map.mp hdf
        rw [← hcd, List.length_map]
        exact hsizes.1 c hc
      · intro df hdf
        rw [List.getLast?_map] at hdf
        cases hlast : (chunks B contents).getLast? with
        | none => rw [hlast] at hdf; exact absurd hdf (by simp)
        | some c =>
          rw [hlast] at hdf
          have : df = c.map (assignColumns columns) := by
            simpa using hdf.symm
          rw [this, List.length_map]
          exact hsizes.2 c hlast
      · exact ⟨assignColumns columns, by rw [← List.map_flatten, hflat]⟩

/-- C2 counterexample: the file sink is not append-only.  The store
already holds the record (id, 1) at the output path; to_json of the
batch holding (id, 2) replaces the file content, so the previously
persisted data is neither kept as a prefix nor present at all. -/
theorem C2_counterexample :
    lookupStore priorStore "tgt/orders/part-0000" = some [[("id", "1")]] ∧
    lookupStore overwrittenStore "tgt/orders/part-0000" = some [[("id", "2")]] ∧
    ((lookupStore overwrittenStore "tgt/orders/part-0000").getD []).take 1 ≠
      [[("id", "1")]] ∧
    [("id", "1")] ∉ (lookupStore overwrittenStore "tgt/orders/part-0000").getD [] := by
  decide

/-- C2 amended: the table sink is append-only: to_sql with the append
write mode extends the dataset table with the batch rows, keeping all
previously persisted rows before them, and leaves every other table
unchanged.  The file sink, however, writes whole files: to_json makes
the batch the entire content of the destination path, replacing what
was persisted there, and leaves every other path unchanged. -/
theorem C2_amended :
    (∀ (db : DB) (ds_name : String) (df : List Record),
      lookupTable (to_sql df db ds_name) ds_name =
        some ((lookupTable db ds_name).getD [] ++ df)) ∧
    (∀ (db : DB) (ds_name t' : String) (df : List Record), t' ≠ ds_name →
      lookupTable (to_sql df db ds_name) t' = lookupTable db t') ∧
    (∀ (st : FileStore) (df : List Record) (tgt_base_dir ds_name file_name : String),
      lookupStore (to_json df tgt_base_dir ds_name file_name st)
        (tgt_base_dir ++ "/" ++ ds_name ++ "/" ++ file_name) = some df) ∧
    (∀ (st : FileStore) (df : List Record) (tgt_base_dir ds_name file_name p : String),
      p ≠ tgt_base_dir ++ "/" ++ ds_name ++ "/" ++ file_name →
      lookupStore (to_json df tgt_base_dir ds_name file_name st) p = lookupStore st p) :=
  ⟨fun db ds_name df => lookupTable_appendTable db ds_name df,
   fun db ds_name t' df h => lookupTable_appendTable_ne db ds_name t' df h,
   fun st df _ _ _ => lookupStore_setFile st _ df,
   fun st df _ _ _ p h => lookupStore_setFile_ne st _ p df h⟩

/-- Witness for the amended C2 at concrete inputs: appending to table B
extends its rows; table A is untouched; the file write puts the batch at
the destination path and an unrelated path is untouched. -/
theorem C2_amended_witness :
    lookupTable (to_sql [[("id", "2")]] [("B", [[("id", "1")]])] "B") "B" =
      some ((lookupTable [("B", [[("id", "1")]])] "B").getD [] ++ [[("id", "2")]]) ∧
    lookupTable (to_sql [[("id", "2")]] [("B", [[("id", "1")]])] "B") "A" =
      lookupTable [("B", [[("id", "1")]])] "A" ∧
    lookupStore (to_json [[("id", "2")]] "tgt" "B" "part-0" [])
      ("tgt" ++ "/" ++ "B" ++ "/" ++ "part-0") = some [[("id", "2")]] ∧
    lookupStore (to_json [[("id", "2")]] "tgt" "B" "part-0" []) "other" =
      lookupStore [] "other" :=
  ⟨C2_amended.1 _ _ _, C2_amended.2.1 _ _ _ _ (by decide),
   C2_amended.2.2.1 _ _ _ _ _, C2_amended.2.2.2 _ _ _ _ _ _ (by decide)⟩

/-- C4: for every dataset present in the schema, column-name resolution
returns the names of the column details sorted ascending by
column_position; the sort is a permutation of the document order and,
on ties of the position value, keeps the original document order (for
each position value, the columns carrying it appear exactly as in the
document). -/
theorem C4_column_order (schemas : Schemas) (ds_name : String)
    (column_details : List ColumnDef)
    (h : lookupSchema schemas ds_name = some column_details) :
    get_column_names schemas ds_name =
      .ok ((sortColumns column_details).map (fun c => c.column_name)) ∧
    (sortColumns column_details).Pairwise posLE ∧
    (sortColumns column_details).Perm column_details ∧
    ∀ p : Int,
      (sortColumns column_details).filter (fun c => c.column_position == p) =
        column_details.filter (fun c => c.column_position == p) := by
  refine ⟨by simp [get_column_names, h], List.sorted_insertionSort posLE column_details,
    List.perm_insertionSort posLE column_details, ?_⟩
  intro p
  have hmem : ∀ a ∈ column_details.filter (fun c => c.column_position == p),
      (fun c : ColumnDef => c.column_position == p) a = true :=
    fun a ha => (List.mem_filter.mp ha).2
  have hpair : (column_details.filter (fun c => c.column_position == p)).Pairwise posLE := by
    refine List.pairwise_of_forall_mem_list ?_
    intro a ha b hb
    have ha' : a.column_position = p := by simpa using (List.mem_filter.mp ha).2
    have hb' : b.column_position = p := by simpa using (List.mem_filter.mp hb).2
    simp [posLE, ha', hb']
  have hsub1 : (column_details.filter (fun c => c.column_position == p)).Sublist
      (sortColumns column_details) :=
    List.sublist_insertionSort hpair (List.filter_sublist column_details)
  have hself : (column_details.filter (fun c => c.column_position == p)).filter
        (fun c => c.column_position == p) =
      column_details.filter (fun c => c.column_position == p) :=
    List.filter_eq_self.mpr hmem
  have hsub2 : (column_details.filter (fun c => c.column_position == p)).Sublist
      ((sortColumns column_details).filter (fun c => c.column_position == p)) := by
    have hf := hsub1.filter (fun c => c.column_position == p)
    rwa [hself] at hf
  have hperm : ((sortColumns column_details).filter
        (fun c => c.column_position == p)).Perm
      (column_details.filter (fun c => c.column_position == p)) :=
    (List.perm_insertionSort posLE column_details).filter _
  exact (hsub2.eq_of_length hperm.length_eq.symm).symm

/-- Witness for C4 at a concrete schema with a duplicated position:
resolution succeeds and the duplicated-position columns a and c keep
their document order after b, which has the smaller position. -/
theorem C4_column_order_witness :
    lookupSchema dupSchema "orders" = some dupColumns ∧
    (get_column_names dupSchema "orders" =
        .ok ((sortColumns dupColumns).map (fun c => c.column_name)) ∧
      (sortColumns dupColumns).Pairwise posLE ∧
      (sortColumns dupColumns).Perm dupColumns ∧
      ∀ p : Int,
        (sortColumns dupColumns).filter (fun c => c.column_position == p) =
          dupColumns.filter (fun c => c.column_position == p)) ∧
    get_column_names dupSchema "orders" = .ok ["b", "a", "c"] :=
  ⟨by decide, C4_column_order dupSchema "orders" dupColumns (by decide), by decide⟩

/-- C7: for every dataset name absent from the schema document, column
resolution fails with the unknown-dataset error (the KeyError of the
Python dictionary access) and returns no column list. -/
theorem C7_unknown_dataset (schemas : Schemas) (ds_name : String)
    (h : ds_name ∉ schemas.map Prod.fst) :
    get_column_names schemas ds_name = .error (.unknownDataset ds_name) :=
  get_column_names_absent schemas ds_name h

/-- Witness for C7: dataset C is absent from the two-dataset schema and
its resolution fails with the unknown-dataset error. -/
theorem C7_unknown_dataset_witness :
    "C" ∉ schemaAB.map Prod.fst ∧
    get_column_names schemaAB "C" = .error (.unknownDataset "C") :=
  ⟨by decide, C7_unknown_dataset schemaAB "C" (by decide)⟩

/-- C1 counterexample: failure isolation does not hold for every kind
of failure in the converter.  Dataset B alone converts successfully,
but dispatching over A and B, where A has a part file while the schema
knows only B, makes the job of A raise the KeyError-modelled
unknownDataset error, which the converter loop does not catch (it
catches only NameError): the dispatcher aborts, records no outcome at
all, and B is never processed, its output never written. -/
theorem C1_counterexample :
    file_converter schemaOnlyB srcAB "src" "tgt" "B" [] =
      (none, [("tgt/B/part-0", [[("id", "7")]])]) ∧
    process_files_conv schemaOnlyB srcAB "src" "tgt" (some ["A", "B"]) [] =
      ⟨[], [], some (.unknownDataset "A")⟩ := by
  decide

/-- C1 amended: in the loader every dataset is isolated: the dispatcher
reports one result per requested dataset, and each result equals the
outcome of running that dataset job alone, whatever happened to the
others.  In the converter only the NameError raised for a dataset with
no files is isolated; with that failure kind the concrete scenario of
the claim holds in both programs: dispatching over A (no files) and B
(valid) reports A as NotFound and B as Completed, with the whole output
of B written.  Failures of any other kind abort the converter
dispatcher and do prevent the remaining datasets from completing. -/
theorem C1_amended :
    (∀ (schemas : Schemas) (src : SrcFS) (src_base_dir : String)
        (ds_names : Option (List String)) (db : DB),
      (process_files_load schemas src src_base_dir ds_names db).results =
        (effectiveNames schemas ds_names).map
          (fun n => (n, (process_dataset schemas src src_base_dir n []).1))) ∧
    process_files_conv schemaAB srcOnlyB "src" "tgt" (some ["A", "B"]) [] =
      ⟨[("A", .NotFound), ("B", .Completed)],
       [("tgt/B/part-0", [[("id", "7")], [("id", "8")]])], none⟩ ∧
    process_files_load schemaAB srcOnlyB "src" (some ["A", "B"]) [] =
      ⟨[("A", .NotFound), ("B", .Completed)],
       [("B", [[("id", "7")], [("id", "8")]])]⟩ :=
  ⟨fun schemas src src_base_dir ds_names db =>
    loadLoop_results schemas src src_base_dir (effectiveNames schemas ds_names) db,
   by decide, by decide⟩

/-- C8: with the dataset-name argument omitted, both dispatchers
process exactly the keys of the schema document, in document order and
each exactly once (the keys of a Python dict are pairwise distinct);
the loader does so unconditionally, the converter provided dataset and
file names are separator-free, so that no job of a schema dataset can
raise anything but the caught NameError. -/
theorem C8_default_names (schemas : Schemas) (src : SrcFS)
    (src_base_dir tgt_base_dir : String) (st : FileStore) (db : DB)
    (hkeys : ∀ ds ∈ schemas.map Prod.fst, sepFree ds)
    (hfiles : ∀ ds ∈ schemas.map Prod.fst, ∀ f ∈ globParts src ds, sepFree f.1)
    (hnd : (schemas.map Prod.fst).Nodup) :
    (process_files_load schemas src src_base_dir none db).results.map Prod.fst =
      schemas.map Prod.fst ∧
    (process_files_conv schemas src src_base_dir tgt_base_dir none st).results.map
      Prod.fst = schemas.map Prod.fst ∧
    (process_files_conv schemas src src_base_dir tgt_base_dir none st).aborted =
      none ∧
    ((process_files_load schemas src src_base_dir none db).results.map
      Prod.fst).Nodup ∧
    ((process_files_conv schemas src src_base_dir tgt_base_dir none st).results.map
      Prod.fst).Nodup := by
  have hload : (process_files_load schemas src src_base_dir none db).results.map
      Prod.fst = schemas.map Prod.fst := by
    rw [process_files_load, loadLoop_results]
    simp [effectiveNames, List.map_map]
  have hconv := convLoop_clean schemas src src_base_dir tgt_base_dir
    (schemas.map Prod.fst) st (fun ds hds => ⟨hkeys ds hds, hds⟩) hfiles
  have hc1 : (process_files_conv schemas src src_base_dir tgt_base_dir none st).results.map
      Prod.fst = schemas.map Prod.fst := hconv.1
  exact ⟨hload, hc1, hconv.2, hload ▸ hnd, hc1 ▸ hnd⟩

/-- Witness for C8: on the two-dataset schema, both dispatchers without
a name list process exactly A then B, once each, without aborting. -/
theorem C8_default_names_witness :
    (∀ ds ∈ schemaAB.map Prod.fst, sepFree ds) ∧
    (∀ ds ∈ schemaAB.map Prod.fst, ∀ f ∈ globParts srcOnlyB ds, sepFree f.1) ∧
    (schemaAB.map Prod.fst).Nodup ∧
    ((process_files_load schemaAB srcOnlyB "src" none []).results.map Prod.fst =
        schemaAB.map Prod.fst ∧
      (process_files_conv schemaAB srcOnlyB "src" "tgt" none []).results.map
        Prod.fst = schemaAB.map Prod.fst ∧
      (process_files_conv schemaAB srcOnlyB "src" "tgt" none []).aborted = none ∧
      ((process_files_load schemaAB srcOnlyB "src" none []).results.map
        Prod.fst).Nodup ∧
      ((process_files_conv schemaAB srcOnlyB "src" "tgt" none []).results.map
        Prod.fst).Nodup) :=
  ⟨by decide, by decide, by decide,
   C8_default_names schemaAB srcOnlyB "src" "tgt" [] [] (by decide) (by decide)
     (by decide)⟩

/-- C5: for every dataset whose directory holds no file matching the
part-file pattern, both jobs raise the NameError modelled by
noFilesFound and leave their sink state exactly as it was (no file
written, no row inserted); the loader job reports NotFound, and the
converter dispatcher records NotFound for the dataset. -/
theorem C5_notfound_no_writes (schemas : Schemas) (src : SrcFS)
    (src_base_dir tgt_base_dir ds_name : String) (st : FileStore) (db : DB)
    (h : globParts src ds_name = []) :
    file_converter schemas src src_base_dir tgt_base_dir ds_name st =
      (some (.noFilesFound ds_name), st) ∧
    db_loader schemas src src_base_dir ds_name db =
      (some (.noFilesFound ds_name), db) ∧
    process_dataset schemas src src_base_dir ds_name db = (.NotFound, db) ∧
    process_files_conv schemas src src_base_dir tgt_base_dir (some [ds_name]) st =
      ⟨[(ds_name, .NotFound)], st, none⟩ := by
  have h1 : file_converter schemas src src_base_dir tgt_base_dir ds_name st =
      (some (.noFilesFound ds_name), st) := by
    simp [file_converter, h]
  have h2 : db_loader schemas src src_base_dir ds_name db =
      (some (.noFilesFound ds_name), db) := by
    simp [db_loader, h]
  refine ⟨h1, h2, ?_, ?_⟩
  · simp [process_dataset, h2, classify]
  · simp [process_files_conv, effectiveNames, convLoop, h1]

/-- Witness for C5: dataset A of the two-dataset source tree has no
part files, so its job raises, writes nothing, and is reported
NotFound. -/
theorem C5_notfound_no_writes_witness :
    globParts srcOnlyB "A" = [] ∧
    (file_converter schemaAB srcOnlyB "src" "tgt" "A" [] =
        (some (.noFilesFound "A"), []) ∧
      db_loader schemaAB srcOnlyB "src" "A" [] = (some (.noFilesFound "A"), []) ∧
      process_dataset schemaAB srcOnlyB "src" "A" [] = (.NotFound, []) ∧
      process_files_conv schemaAB srcOnlyB "src" "tgt" (some ["A"]) [] =
        ⟨[("A", .NotFound)], [], none⟩) :=
  ⟨by decide, C5_notfound_no_writes schemaAB srcOnlyB "src" "tgt" "A" [] [] (by decide)⟩

/-- C6 counterexample: for the explicitly empty requested list (length
0), the loader falls back to the schema keys before sizing the pool, so
with three datasets in the schema the pool has size 3, not
min(0, 8) = 0. -/
theorem C6_counterexample :
    pool_size schemaThree (some []) = 3 ∧
    min (List.length ([] : List String)) 8 = 0 ∧
    pool_size schemaThree (some []) ≠ min (List.length ([] : List String)) 8 := by
  decide

/-- C6 amended: for every nonempty requested dataset-name list of
length N the pool size is exactly min(N, 8); an explicitly empty list
is replaced by the schema keys, exactly as an omitted argument, and the
pool is then sized min(number of schema datasets, 8). -/
theorem C6_amended (schemas : Schemas) (ds_names : List String) (h : ds_names ≠ []) :
    pool_size schemas (some ds_names) = min ds_names.length 8 ∧
    pool_size schemas (some []) = min (schemas.map Prod.fst).length 8 ∧
    pool_size schemas none = min (schemas.map Prod.fst).length 8 := by
  refine ⟨?_, by simp [pool_size, effectiveNames], by simp [pool_size, effectiveNames]⟩
  simp [pool_size, effectiveNames, h]

/-- Witness for the amended C6: two requested names give a pool of two;
the empty list and the omitted argument size the pool from the
three-dataset schema. -/
theorem C6_amended_witness :
    ["x", "y"] ≠ ([] : List String) ∧
    (pool_size schemaThree (some ["x", "y"]) = min (List.length ["x", "y"]) 8 ∧
      pool_size schemaThree (some []) = min (schemaThree.map Prod.fst).length 8 ∧
      pool_size schemaThree none = min (schemaThree.map Prod.fst).length 8) :=
  ⟨by decide, C6_amended schemaThree ["x", "y"] (by decide)⟩

/-- C9: passing an explicitly empty dataset-name list to either
dispatcher is identical to omitting the argument, because Python takes
the schema-keys default whenever the argument is falsy; the pool sizing
of the loader agrees as well. -/
theorem C9_empty_list_default (schemas : Schemas) (src : SrcFS)
    (src_base_dir tgt_base_dir : String) (st : FileStore) (db : DB) :
    process_files_conv schemas src src_base_dir tgt_base_dir (some []) st =
      process_files_conv schemas src src_base_dir tgt_base_dir none st ∧
    process_files_load schemas src src_base_dir (some []) db =
      process_files_load schemas src src_base_dir none db ∧
    pool_size schemas (some []) = pool_size schemas none :=
  ⟨rfl, rfl, rfl⟩

/-- C10: the reader resolves schema columns from the second-to-last
path segment (the parent directory name) of the file it is given; it
receives no job dataset name at all, so the resolution result depends
only on that segment, and a file whose parent directory is not a schema
key fails with the unknown-dataset error even though some valid key k
is in the schema.  The paths built by the jobs always put the job's
dataset name in the parent-segment position. -/
theorem C10_parent_dir_resolution (schemas : Schemas) (file k d : String)
    (contents : List Row) (chunksize : Nat)
    (hk : k ∈ schemas.map Prod.fst)
    (hd : dsNameOfPath file = some d)
    (habs : d ∉ schemas.map Prod.fst) :
    read_csv_conv file schemas contents = .error (.unknownDataset d) ∧
    read_csv_sized file schemas contents chunksize = .error (.unknownDataset d) ∧
    (∀ (src_base ds name : String), sepFree ds → sepFree name →
      dsNameOfPath (src_base ++ "/" ++ ds ++ "/" ++ name) = some ds) ∧
    (∀ file2 : String, dsNameOfPath file2 = some d →
      read_csv_conv file2 schemas contents = read_csv_conv file schemas contents) := by
  have hcols := get_column_names_absent schemas d habs
  refine ⟨by simp [read_csv_conv, hd, hcols], by simp [read_csv_sized, hd, hcols],
    fun src_base ds name hds hname => dsNameOfPath_build src_base ds name hds hname, ?_⟩
  intro file2 h2
  simp [read_csv_conv, h2, hd]

/-- Witness for C10: the schema knows datasets A and B, yet the file
src/C/part-0 resolves through its parent directory C and fails. -/
theorem C10_parent_dir_resolution_witness :
    "B" ∈ schemaAB.map Prod.fst ∧
    dsNameOfPath "src/C/part-0" = some "C" ∧
    "C" ∉ schemaAB.map Prod.fst ∧
    (read_csv_conv "src/C/part-0" schemaAB [["1"]] = .error (.unknownDataset "C") ∧
      read_csv_sized "src/C/part-0" schemaAB [["1"]] 10000 =
        .error (.unknownDataset "C") ∧
      (∀ (src_base ds name : String), sepFree ds → sepFree name →
        dsNameOfPath (src_base ++ "/" ++ ds ++ "/" ++ name) = some ds) ∧
      (∀ file2 : String, dsNameOfPath file2 = some "C" →
        read_csv_conv file2 schemaAB [["1"]] =
          read_csv_conv "src/C/part-0" schemaAB [["1"]])) :=
  ⟨by decide, by decide, by decide,
   C10_parent_dir_resolution schemaAB "src/C/part-0" "B" "C" [["1"]] 10000
     (by decide) (by decide) (by decide)⟩

/-- Witness for C3 at a concrete input: five rows with batch size two
give three batches of sizes two, two and one. -/
theorem C3_chunked_read_witness :
    0 < 2 ∧
    ((chunks 2 fiveRows).length = (fiveRows.length + 2 - 1) / 2 ∧
     (∀ c ∈ (chunks 2 fiveRows).dropLast, c.length = 2) ∧
     (∀ c, (chunks 2 fiveRows).getLast? = some c →
       c.length = if fiveRows.length % 2 = 0 then 2 else fiveRows.length % 2) ∧
     (chunks 2 fiveRows).flatten = fiveRows ∧
     (∀ (file : String) (schemas : Schemas) (dfs : List (List Record)),
       read_csv_sized file schemas fiveRows 2 = .ok dfs →
         dfs.length = (fiveRows.length + 2 - 1) / 2 ∧
         (∀ df ∈ dfs.dropLast, df.length = 2) ∧
         (∀ df, dfs.getLast? = some df →
           df.length = if fiveRows.length % 2 = 0 then 2 else fiveRows.length % 2) ∧
         ∃ f, dfs.flatten = fiveRows.map f)) :=
  ⟨by decide, C3_chunked_read fiveRows 2 (by decide)⟩

end ETL
